import Mathlib

/-!
Verification of the Microsoft.ReactNative.Managed.CodeGen analysis core
(dannyvv/react-native-windows): a shallow embedding of the module extractor
(`CodeAnalyzer.TryExtractModule` and its helpers), the serializable-type
closure (`AnalyzeAndFindTypes` / `AddSerializableType`), the extension-method
registry scan, the compile gate (`CompileAndCheckForErrors`), and the code
generator (`CodeGenerator.Generate`).

Symbols of the analyzed compilation are modelled by explicit records; type
identity (Roslyn `SymbolEqualityComparer.Default`) is modelled by a numeric
identity, and the semantic information the analyzer queries about a type
(kind, locality, delegate invoke signature) is supplied by an environment
function from identities to a `TypeInfo` record.
-/

namespace RnwCodeGen

/-- Roslyn `TypeKind` values relevant to the analyzer. -/
inductive TypeKind where
  | classKind
  | enumKind
  | structKind
  | interfaceKind
  | delegateKind
  | otherKind
deriving DecidableEq, Repr

/-- Roslyn `Accessibility` values relevant to the analyzer. -/
inductive Accessibility where
  | publicAcc
  | internalAcc
  | protectedAcc
  | privateAcc
deriving DecidableEq, Repr

/-- CodeAnalyzer.IsAccessible: public or internal. -/
def isAccessibleAcc (a : Accessibility) : Bool :=
  a == Accessibility.publicAcc || a == Accessibility.internalAcc

/-- Attribute data: identity of the attribute class, positional constructor
arguments and named arguments.  An argument value is `some s` when the
runtime value is the string `s` and `none` when the `as string` cast in the
source yields null. -/
structure AttributeData where
  attrClass : Nat
  ctorArgs : List (Option String)
  namedArgs : List (String × Option String)
deriving DecidableEq, Repr

/-- One parameter of a method or delegate signature: the identity of its
type, its `RefKind == Out` flag, and whether its type is a generic type
parameter (`ITypeParameterSymbol`). -/
structure ParamInfo where
  type : Nat
  isOut : Bool
  isTypeParameter : Bool
deriving DecidableEq, Repr

/-- An `IMethodSymbol` of the analyzed compilation as the analyzer queries
it. -/
structure MethodSymbol where
  name : String
  attrs : List AttributeData
  accessibility : Accessibility
  returnsVoid : Bool
  returnType : Nat
  params : List ParamInfo
  isExtensionMethod : Bool
deriving DecidableEq, Repr

/-- An `IPropertySymbol`: `getMethod`/`setMethod` are `none` when the
accessor is absent, otherwise they carry the accessor's declared
accessibility. -/
structure PropertySymbol where
  name : String
  attrs : List AttributeData
  accessibility : Accessibility
  type : Nat
  getMethod : Option Accessibility
  setMethod : Option Accessibility
deriving DecidableEq, Repr

/-- An `IFieldSymbol`.  The source never consults `IsReadOnly`; the flag is
kept so that inputs such as a read-only (not settable) field can be written
down. -/
structure FieldSymbol where
  name : String
  attrs : List AttributeData
  accessibility : Accessibility
  type : Nat
  isReadOnly : Bool
deriving DecidableEq, Repr

/-- A member that is a property or a field (the two symbol kinds
`TryExtractConstant`/`TryExtractCallback` accept). -/
inductive DataMember where
  | prop (p : PropertySymbol)
  | field (f : FieldSymbol)
deriving DecidableEq, Repr

/-- Declared name of a property-or-field member. -/
def DataMember.name : DataMember → String
  | DataMember.prop p => p.name
  | DataMember.field f => f.name

/-- Attributes of a property-or-field member. -/
def DataMember.attrs : DataMember → List AttributeData
  | DataMember.prop p => p.attrs
  | DataMember.field f => f.attrs

/-- Declared accessibility of a property-or-field member. -/
def DataMember.accessibility : DataMember → Accessibility
  | DataMember.prop p => p.accessibility
  | DataMember.field f => f.accessibility

/-- Declared type of a property-or-field member. -/
def DataMember.typeId : DataMember → Nat
  | DataMember.prop p => p.type
  | DataMember.field f => f.type

/-- A member of a type, as the member loop of `TryExtractModule`
distinguishes them (`IMethodSymbol` vs `IPropertySymbol`/`IFieldSymbol`). -/
inductive MemberSymbol where
  | method (m : MethodSymbol)
  | data (d : DataMember)
deriving DecidableEq, Repr

/-- An `INamedTypeSymbol` of the analyzed compilation, as enumerated by
`GetAllTypes`. -/
structure TypeSymbol where
  id : Nat
  name : String
  attrs : List AttributeData
  typeKind : TypeKind
  isAbstract : Bool
  allInterfaces : List Nat
  mightContainExtensionMethods : Bool
  members : List MemberSymbol
deriving DecidableEq, Repr

/-- Signature of a delegate's `DelegateInvokeMethod`. -/
structure MethodSig where
  returnsVoid : Bool
  returnType : Nat
  paramTypes : List ParamInfo
deriving DecidableEq, Repr

/-- Semantic information about a type identity: whether it is an
`INamedTypeSymbol`, its `TypeKind`, whether its containing assembly equals
the analyzed compilation's assembly, and its delegate invoke signature if
any. -/
structure TypeInfo where
  isNamed : Bool
  kind : TypeKind
  isLocal : Bool
  delegateInvoke : Option MethodSig
deriving DecidableEq, Repr

/-- The required library type identities resolved by `ReactTypes.TryLoad`. -/
structure ReactTypes where
  iViewManagerType : Nat
  iReactPackageProvider : Nat
  reactContext : Nat
  reactConstantProvider : Nat
  jsValueReader : Nat
  jsValueWriter : Nat
  reactModuleAttribute : Nat
  reactInitializerAttribute : Nat
  reactConstantAttribute : Nat
  reactConstantProviderAttribute : Nat
  reactMethodAttribute : Nat
  reactSyncMethodAttribute : Nat
  reactEventAttribute : Nat
  reactFunctionAttribute : Nat
deriving DecidableEq, Repr

/-- Diagnostic descriptors used by the analyzer (DiagnosticDescriptors), plus
a marker for compile-level error diagnostics and for a missing reference
assembly. -/
inductive DiagnosticKind where
  | UnexpectedPropertyInAttribute
  | InitializersMustBePublicOrInternal
  | InitializersMustReturnVoid
  | InitializersMustHaveOneParameterOfTypeReactContext
  | ConstantProviderMustBePublicOrInternal
  | ConstantProviderMustReturnVoid
  | ConstantProviderMustHaveOneParameterOfTypeReactContext
  | ConstantsMustBePublicOrInternal
  | ConstantsMustBeGettable
  | CallbacksMustBeSettable
  | CallbackMustBePublicOrInternal
  | CallbackTypeMustBeDelegate
  | CallbackDelegateMustReturnVoid
  | CompileError
  | CantFindReferenceAssembly
deriving DecidableEq, Repr

/-- CodeAnalyzer.TryFindAttribute: the first attribute whose class equals the
given attribute type identity. -/
def tryFindAttribute (attrs : List AttributeData) (attributeType : Nat) : Option AttributeData :=
  attrs.find? (fun attr => attr.attrClass == attributeType)

/-- Modelled from the spec: `ReactNativeNames.DefaultEventEmitterName` is not
under src/; spec section 3 says a module's event-emitter name defaults to a
library-wide default name. -/
def defaultEventEmitterName : String := "RCTDeviceEventEmitter"

/-- Model enum `ReactMethod.MethodReturnType` (Void = 0 is the default
value an unassigned field keeps). -/
inductive MethodReturnType where
  | void
  | callback
  | twoCallbacks
  | promise
deriving DecidableEq, Repr

/-- Model class `ReactMethod`. -/
structure ReactMethod where
  method : MethodSymbol
  name : String
  isSynchroneous : Bool
  returnType : MethodReturnType
deriving DecidableEq, Repr

/-- The `ReactMethod` constructor: it assigns `Method`, `Name` and
`IsSynchroneous` and never assigns `ReturnType`, which therefore keeps the
default enum value `Void = 0`. -/
def ReactMethod.create (method : MethodSymbol) (name : String) (isSynchroneous : Bool) : ReactMethod :=
  { method := method, name := name, isSynchroneous := isSynchroneous,
    returnType := MethodReturnType.void }

/-- Model class `ReactInitializer`. -/
structure ReactInitializer where
  method : MethodSymbol
deriving DecidableEq, Repr

/-- Model class `ReactConstantProvider`. -/
structure ReactConstantProvider where
  method : MethodSymbol
deriving DecidableEq, Repr

/-- Model class `ReactConstant`. -/
structure ReactConstant where
  symbol : DataMember
  name : String
deriving DecidableEq, Repr

/-- Model class `ReactCallback` (shape shared by `ReactEvent` and
`ReactFunction`): symbol, delegate parameters, public name and context
name. -/
structure ReactCallback where
  symbol : DataMember
  callbackParameters : List ParamInfo
  name : String
  callbackContextName : String
deriving DecidableEq, Repr

/-- Model class `ReactModule`. -/
structure ReactModule where
  typeId : Nat
  moduleName : String
  eventEmitterName : String
  methods : List ReactMethod
  initializers : List ReactInitializer
  constantProviders : List ReactConstantProvider
  constants : List ReactConstant
  events : List ReactCallback
  functions : List ReactCallback
deriving DecidableEq, Repr

/-- The named-argument loop of `TryExtractModule`: `ModuleName` assigns the
module name, `EventEmitterName` assigns the emitter name, any other key is an
unexpected property (`none` result). -/
def moduleNamedArgsLoop : List (String × Option String) → Option String → Option String →
    Option (Option String × Option String)
  | [], moduleName, eventEmitterName => some (moduleName, eventEmitterName)
  | (key, value) :: rest, moduleName, eventEmitterName =>
    if key == "ModuleName" then moduleNamedArgsLoop rest value eventEmitterName
    else if key == "EventEmitterName" then moduleNamedArgsLoop rest moduleName value
    else none

/-- The named-argument loop of `TryExtractMethodFromAttributeData`:
`MethodName` assigns the name, any other key is an unexpected property. -/
def methodNamedArgsLoop : List (String × Option String) → Option String → Option (Option String)
  | [], name => some name
  | (key, value) :: rest, _name =>
    if key == "MethodName" then methodNamedArgsLoop rest value
    else none

/-- The named-argument loop of `TryExtractConstant`: `ConstantName` assigns
the name, any other key is an unexpected property. -/
def constantNamedArgsLoop : List (String × Option String) → Option String → Option (Option String)
  | [], name => some name
  | (key, value) :: rest, _name =>
    if key == "ConstantName" then constantNamedArgsLoop rest value
    else none

/-- The named-argument loop of `TryExtractCallback`: `FunctionName` or
`EventName` assign the public name, `ModuleName` or `EventEmitterName` assign
the context name, any other key is an unexpected property.  (The source
accepts all four keys for both the event and the function attribute.) -/
def callbackNamedArgsLoop : List (String × Option String) → Option String → Option String →
    Option (Option String × Option String)
  | [], name, contextName => some (name, contextName)
  | (key, value) :: rest, name, contextName =>
    if key == "FunctionName" || key == "EventName" then
      callbackNamedArgsLoop rest value contextName
    else if key == "ModuleName" || key == "EventEmitterName" then
      callbackNamedArgsLoop rest name value
    else none

/-- The positional name argument: `attr.ConstructorArguments[0].Value as
string` when there is at least one constructor argument, otherwise the name
stays null. -/
def positionalArg (ctorArgs : List (Option String)) : Option String :=
  match ctorArgs with
  | [] => none
  | v :: _ => v

/-- CodeAnalyzer.TryExtractMethodFromAttributeData.  Returns the emitted
diagnostics and the extracted method, if any. -/
def tryExtractMethodFromAttributeData (method : MethodSymbol) (attributeType : Nat)
    (synchroneous : Bool) : List DiagnosticKind × Option ReactMethod :=
  match tryFindAttribute method.attrs attributeType with
  | none => ([], none)
  | some attr =>
    match methodNamedArgsLoop attr.namedArgs (positionalArg attr.ctorArgs) with
    | none => ([DiagnosticKind.UnexpectedPropertyInAttribute], none)
    | some name =>
      ([], some (ReactMethod.create method (name.getD method.name) synchroneous))

/-- CodeAnalyzer.TryExtractMethod (asynchronous variant). -/
def tryExtractMethod (rt : ReactTypes) (method : MethodSymbol) :
    List DiagnosticKind × Option ReactMethod :=
  tryExtractMethodFromAttributeData method rt.reactMethodAttribute false

/-- CodeAnalyzer.TryExtractSyncMethod. -/
def tryExtractSyncMethod (rt : ReactTypes) (method : MethodSymbol) :
    List DiagnosticKind × Option ReactMethod :=
  tryExtractMethodFromAttributeData method rt.reactSyncMethodAttribute true

/-- CodeAnalyzer.TryExtractInitializer: accessibility, void return and
exactly one parameter of type `ReactContext` are checked in this order. -/
def tryExtractInitializer (rt : ReactTypes) (method : MethodSymbol) :
    List DiagnosticKind × Option ReactInitializer :=
  match tryFindAttribute method.attrs rt.reactInitializerAttribute with
  | none => ([], none)
  | some _ =>
    if !isAccessibleAcc method.accessibility then
      ([DiagnosticKind.InitializersMustBePublicOrInternal], none)
    else if !method.returnsVoid then
      ([DiagnosticKind.InitializersMustReturnVoid], none)
    else if !(method.params.length == 1
        && (method.params.headD ⟨0, false, false⟩).type == rt.reactContext) then
      ([DiagnosticKind.InitializersMustHaveOneParameterOfTypeReactContext], none)
    else
      ([], some { method := method })

/-- CodeAnalyzer.TryExtractConstantProvider: accessibility, void return and
exactly one parameter of type `ReactConstantProvider` are checked in this
order. -/
def tryExtractConstantProvider (rt : ReactTypes) (method : MethodSymbol) :
    List DiagnosticKind × Option ReactConstantProvider :=
  match tryFindAttribute method.attrs rt.reactConstantProviderAttribute with
  | none => ([], none)
  | some _ =>
    if !isAccessibleAcc method.accessibility then
      ([DiagnosticKind.ConstantProviderMustBePublicOrInternal], none)
    else if !method.returnsVoid then
      ([DiagnosticKind.ConstantProviderMustReturnVoid], none)
    else if !(method.params.length == 1
        && (method.params.headD ⟨0, false, false⟩).type == rt.reactConstantProvider) then
      ([DiagnosticKind.ConstantProviderMustHaveOneParameterOfTypeReactContext], none)
    else
      ([], some { method := method })

/-- CodeAnalyzer.TryExtractConstant: name resolution from the attribute, then
the accessibility check, then (for properties) the gettable check. -/
def tryExtractConstant (rt : ReactTypes) (symbol : DataMember) :
    List DiagnosticKind × Option ReactConstant :=
  match tryFindAttribute symbol.attrs rt.reactConstantAttribute with
  | none => ([], none)
  | some attr =>
    match constantNamedArgsLoop attr.namedArgs (positionalArg attr.ctorArgs) with
    | none => ([DiagnosticKind.UnexpectedPropertyInAttribute], none)
    | some name =>
      if !isAccessibleAcc symbol.accessibility then
        ([DiagnosticKind.ConstantsMustBePublicOrInternal], none)
      else
        match symbol with
        | DataMember.prop p =>
          if p.getMethod.isNone || !isAccessibleAcc (p.getMethod.getD Accessibility.privateAcc) then
            ([DiagnosticKind.ConstantsMustBeGettable], none)
          else
            ([], some { symbol := symbol, name := name.getD symbol.name })
        | DataMember.field _ =>
          ([], some { symbol := symbol, name := name.getD symbol.name })

/-- CodeAnalyzer.TryExtractCallback.  Checks run in source order: attribute
lookup, named arguments, the property-setter check (properties only; a field
reaches the next check directly), member accessibility, the delegate-type
check via the environment, and the void-return check of the delegate invoke
method.  On success it returns the delegate's parameters, the resolved name
and the resolved context name. -/
def tryExtractCallback (env : Nat → TypeInfo) (symbol : DataMember)
    (defaultCallbackContextName : String) (attributeType : Nat) :
    List DiagnosticKind × Option (List ParamInfo × String × String) :=
  match tryFindAttribute symbol.attrs attributeType with
  | none => ([], none)
  | some attr =>
    match callbackNamedArgsLoop attr.namedArgs (positionalArg attr.ctorArgs) none with
    | none => ([DiagnosticKind.UnexpectedPropertyInAttribute], none)
    | some (name, contextName) =>
      let setterFails : Bool :=
        match symbol with
        | DataMember.prop p =>
          p.setMethod.isNone || !isAccessibleAcc (p.setMethod.getD Accessibility.privateAcc)
        | DataMember.field _ => false
      if setterFails then
        ([DiagnosticKind.CallbacksMustBeSettable], none)
      else if !isAccessibleAcc symbol.accessibility then
        ([DiagnosticKind.CallbackMustBePublicOrInternal], none)
      else
        let info := env symbol.typeId
        match if info.isNamed then info.delegateInvoke else none with
        | none => ([DiagnosticKind.CallbackTypeMustBeDelegate], none)
        | some sig =>
          if !sig.returnsVoid then
            ([DiagnosticKind.CallbackDelegateMustReturnVoid], none)
          else
            ([], some (sig.paramTypes, name.getD symbol.name,
              contextName.getD defaultCallbackContextName))

/-- CodeAnalyzer.TryExtractEvent. -/
def tryExtractEvent (rt : ReactTypes) (env : Nat → TypeInfo) (symbol : DataMember)
    (defaultEventEmitter : String) : List DiagnosticKind × Option ReactCallback :=
  match tryExtractCallback env symbol defaultEventEmitter rt.reactEventAttribute with
  | (d, some (ps, name, ctx)) =>
    (d, some { symbol := symbol, callbackParameters := ps, name := name, callbackContextName := ctx })
  | (d, none) => (d, none)

/-- CodeAnalyzer.TryExtractFunction. -/
def tryExtractFunction (rt : ReactTypes) (env : Nat → TypeInfo) (symbol : DataMember)
    (moduleName : String) : List DiagnosticKind × Option ReactCallback :=
  match tryExtractCallback env symbol moduleName rt.reactFunctionAttribute with
  | (d, some (ps, name, ctx)) =>
    (d, some { symbol := symbol, callbackParameters := ps, name := name, callbackContextName := ctx })
  | (d, none) => (d, none)

/-- The member loop body of `TryExtractModule`: a method member is tried as
asynchronous method, synchronous method, initializer, then constant
provider; a property-or-field member is tried as constant, event, then
function.  Diagnostics of every attempted shape accumulate in order. -/
def moduleMemberStep (rt : ReactTypes) (env : Nat → TypeInfo) (moduleName eventEmitterName : String)
    (acc : List DiagnosticKind × ReactModule) (member : MemberSymbol) :
    List DiagnosticKind × ReactModule :=
  let diags := acc.1
  let m := acc.2
  match member with
  | MemberSymbol.method ms =>
    match tryExtractMethod rt ms with
    | (d1, some rm) => (diags ++ d1, { m with methods := m.methods ++ [rm] })
    | (d1, none) =>
      match tryExtractSyncMethod rt ms with
      | (d2, some rm) => (diags ++ d1 ++ d2, { m with methods := m.methods ++ [rm] })
      | (d2, none) =>
        match tryExtractInitializer rt ms with
        | (d3, some ini) => (diags ++ d1 ++ d2 ++ d3, { m with initializers := m.initializers ++ [ini] })
        | (d3, none) =>
          match tryExtractConstantProvider rt ms with
          | (d4, some cp) =>
            (diags ++ d1 ++ d2 ++ d3 ++ d4, { m with constantProviders := m.constantProviders ++ [cp] })
          | (d4, none) => (diags ++ d1 ++ d2 ++ d3 ++ d4, m)
  | MemberSymbol.data sym =>
    match tryExtractConstant rt sym with
    | (d1, some c) => (diags ++ d1, { m with constants := m.constants ++ [c] })
    | (d1, none) =>
      match tryExtractEvent rt env sym eventEmitterName with
      | (d2, some ev) => (diags ++ d1 ++ d2, { m with events := m.events ++ [ev] })
      | (d2, none) =>
        match tryExtractFunction rt env sym moduleName with
        | (d3, some fn) => (diags ++ d1 ++ d2 ++ d3, { m with functions := m.functions ++ [fn] })
        | (d3, none) => (diags ++ d1 ++ d2 ++ d3, m)

/-- CodeAnalyzer.TryExtractModule: attribute lookup, name resolution (the
positional argument first, then the named-argument loop, then the type's own
name), and the member loop. -/
def tryExtractModule (rt : ReactTypes) (env : Nat → TypeInfo) (t : TypeSymbol) :
    List DiagnosticKind × Option ReactModule :=
  match tryFindAttribute t.attrs rt.reactModuleAttribute with
  | none => ([], none)
  | some attr =>
    match moduleNamedArgsLoop attr.namedArgs (positionalArg attr.ctorArgs) none with
    | none => ([DiagnosticKind.UnexpectedPropertyInAttribute], none)
    | some (mn, en) =>
      let moduleName := mn.getD t.name
      let eventEmitterName := en.getD defaultEventEmitterName
      let m0 : ReactModule :=
        { typeId := t.id, moduleName := moduleName, eventEmitterName := eventEmitterName,
          methods := [], initializers := [], constantProviders := [], constants := [],
          events := [], functions := [] }
      let r := t.members.foldl (moduleMemberStep rt env moduleName eventEmitterName) ([], m0)
      (r.1, some r.2)

/-- Modelled from the spec: `ReactAssembly`'s `SerializableTypes` container
is not under src/; spec section 3 describes it as a mapping from type to
`TypeKind` with unique keys.  Insertion keeps the first entry for a key. -/
def mapAdd (m : List (Nat × TypeKind)) (k : Nat) (v : TypeKind) : List (Nat × TypeKind) :=
  if m.any (fun p => p.1 == k) then m else m ++ [(k, v)]

/-- Modelled from the spec: `ReactAssembly`'s reader/writer function
containers are not under src/; spec section 4.3 prescribes
last-registered-wins when several candidates target the same type. -/
def mapPutLast (m : List (Nat × MethodSymbol)) (k : Nat) (v : MethodSymbol) :
    List (Nat × MethodSymbol) :=
  m.filter (fun p => p.1 != k) ++ [(k, v)]

/-- Modelled from the spec: the `ReactAssembly` aggregate root is not under
src/; spec section 3 lists its components. -/
structure ReactAssembly where
  modules : List ReactModule
  viewManagers : List Nat
  serializableTypes : List (Nat × TypeKind)
  jsReaderFunctions : List (Nat × MethodSymbol)
  jsWriterFunctions : List (Nat × MethodSymbol)
deriving DecidableEq, Repr

/-- The empty assembly model `new ReactAssembly()`. -/
def ReactAssembly.empty : ReactAssembly :=
  { modules := [], viewManagers := [], serializableTypes := [],
    jsReaderFunctions := [], jsWriterFunctions := [] }

/-- CodeAnalyzer.IsViewManager: not abstract and implementing
`IViewManager`. -/
def isViewManager (rt : ReactTypes) (t : TypeSymbol) : Bool :=
  !t.isAbstract && t.allInterfaces.contains rt.iViewManagerType

/-- The body of the extension-method registration loop in
`AnalyzeAndFindTypes`: an extension method with exactly two parameters whose
second parameter is not a generic type parameter is indexed as a reader
function when its first parameter has the `JSValueReader` type and its
second parameter is an `out` parameter, otherwise as a writer function when
its first parameter has the `JSValueWriter` type; it is indexed under the
second parameter's type. -/
def extensionScanStep (rt : ReactTypes) (a : ReactAssembly) (member : MemberSymbol) :
    ReactAssembly :=
  match member with
  | MemberSymbol.method method =>
    match method.params with
    | [p0, p1] =>
      if method.isExtensionMethod && !p1.isTypeParameter then
        if p0.type == rt.jsValueReader && p1.isOut then
          { a with jsReaderFunctions := mapPutLast a.jsReaderFunctions p1.type method }
        else if p0.type == rt.jsValueWriter then
          { a with jsWriterFunctions := mapPutLast a.jsWriterFunctions p1.type method }
        else a
      else a
    | _ => a
  | _ => a

/-- State of the serializable-type closure: the `proceseedTypes` guard set
and the serializable-types mapping being populated. -/
structure ClosureState where
  processed : List Nat
  ser : List (Nat × TypeKind)
deriving DecidableEq, Repr

/-- The local function `AddSerializableType` of `AnalyzeAndFindTypes`: stop
if the type was already processed; otherwise mark it processed and, when it
is a named type, either recurse into a delegate's invoke signature (its
return type followed by its parameter types, as `AddSerializableMethod`
walks them) or, for a type of the analyzed compilation, register it under
its type kind.  The recursion of the source terminates through the
processed-set guard; here a fuel argument bounds the recursion depth and
every claim is insensitive to its value or quantifies over it. -/
def addSerializableType (env : Nat → TypeInfo) : Nat → Nat → ClosureState → ClosureState
  | 0 => fun _ s => s
  | fuel + 1 => fun t s =>
    if s.processed.contains t then s
    else
      let s1 : ClosureState := ⟨t :: s.processed, s.ser⟩
      let info := env t
      if info.isNamed then
        if info.kind == TypeKind.delegateKind then
          match info.delegateInvoke with
          | some sig =>
            (sig.returnType :: sig.paramTypes.map ParamInfo.type).foldl
              (fun acc ty => addSerializableType env fuel ty acc) s1
          | none => s1
        else if info.isLocal then
          ⟨s1.processed, mapAdd s1.ser t info.kind⟩
        else s1
      else s1

/-- The local function `AddSerializableMethod`, generalized to a list of
type identities: the fold `AddSerializableType` performs over a signature's
return type and parameter types. -/
def addSerializableTypeList (env : Nat → TypeInfo) (fuel : Nat) (l : List Nat)
    (s : ClosureState) : ClosureState :=
  l.foldl (fun acc ty => addSerializableType env fuel ty acc) s

/-- AddSerializableMethod for an `IMethodSymbol`: the return type, then each
parameter type. -/
def addSerializableMethod (env : Nat → TypeInfo) (fuel : Nat) (method : MethodSymbol)
    (s : ClosureState) : ClosureState :=
  addSerializableTypeList env fuel (method.returnType :: method.params.map ParamInfo.type) s

/-- The type of a constant's symbol (`IFieldSymbol.Type` or
`IPropertySymbol.Type`). -/
def constantType (c : ReactConstant) : Nat :=
  c.symbol.typeId

/-- The per-module seeding loop of `AnalyzeAndFindTypes`: every method's
signature, every constant's declared type, and every parameter of every
event and function callback. -/
def seedModule (env : Nat → TypeInfo) (fuel : Nat) (s : ClosureState) (m : ReactModule) :
    ClosureState :=
  let s := m.methods.foldl (fun s rm => addSerializableMethod env fuel rm.method s) s
  let s := m.constants.foldl (fun s c => addSerializableType env fuel (constantType c) s) s
  (m.events ++ m.functions).foldl
    (fun s cb => cb.callbackParameters.foldl
      (fun s p => addSerializableType env fuel p.type s) s) s

/-- The per-type body of the first loop of `AnalyzeAndFindTypes`: module
extraction, the view-manager check, proactive registration of enum types,
and the extension-method scan for types that might contain extension
methods. -/
def analyzeTypeStep (rt : ReactTypes) (env : Nat → TypeInfo)
    (acc : ReactAssembly × List DiagnosticKind) (t : TypeSymbol) :
    ReactAssembly × List DiagnosticKind :=
  let r := tryExtractModule rt env t
  let a := acc.1
  let a := match r.2 with
    | some m => { a with modules := a.modules ++ [m] }
    | none => a
  let a := if isViewManager rt t then { a with viewManagers := a.viewManagers ++ [t.id] } else a
  let a := if t.typeKind == TypeKind.enumKind then
      { a with serializableTypes := mapAdd a.serializableTypes t.id t.typeKind }
    else a
  let a := if t.mightContainExtensionMethods then t.members.foldl (extensionScanStep rt) a else a
  (a, acc.2 ++ r.1)

/-- CodeAnalyzer.AnalyzeAndFindTypes, returning the populated assembly, the
final `proceseedTypes` set and the accumulated diagnostics. -/
def analyzeAndFindTypesFull (rt : ReactTypes) (env : Nat → TypeInfo) (fuel : Nat)
    (catalog : List TypeSymbol) : ReactAssembly × List Nat × List DiagnosticKind :=
  let ad := catalog.foldl (analyzeTypeStep rt env) (ReactAssembly.empty, [])
  let cs : ClosureState := ad.1.modules.foldl (seedModule env fuel) ⟨[], ad.1.serializableTypes⟩
  ({ ad.1 with serializableTypes := cs.ser }, cs.processed, ad.2)

/-- CodeAnalyzer.AnalyzeAndFindTypes (the assembly it returns). -/
def analyzeAndFindTypes (rt : ReactTypes) (env : Nat → TypeInfo) (fuel : Nat)
    (catalog : List TypeSymbol) : ReactAssembly :=
  (analyzeAndFindTypesFull rt env fuel catalog).1

/-- Severity of a compile-level diagnostic. -/
inductive Severity where
  | error
  | warning
  | info
  | hidden
deriving DecidableEq, Repr

/-- Result of `ReactTypes.TryLoad`: either the resolved type identities, or
the diagnostics produced for missing reference assemblies or types. -/
def LoadResult : Type := ReactTypes ⊕ List DiagnosticKind

/-- CodeAnalyzer.CompileAndCheckForErrors: error-severity compile
diagnostics are recorded; the early return on their presence is commented
out in the source (the `if (m_errors.Count > 0)` block at lines 109-112 of
CodeAnalyzer.cs has an empty body), so control always falls through to
`ReactTypes.TryLoad`, and `ReactTypes` is assigned whenever the load
succeeds.  Returns the recorded diagnostics and the assigned `ReactTypes`,
if any. -/
def compileAndCheckForErrors (compileDiags : List Severity) (loadResult : ReactTypes ⊕ List DiagnosticKind) :
    List DiagnosticKind × Option ReactTypes :=
  let errors := (compileDiags.filter (fun s => s == Severity.error)).map
    (fun _ => DiagnosticKind.CompileError)
  match loadResult with
  | Sum.inl rt => (errors, some rt)
  | Sum.inr loadDiags => (errors ++ loadDiags, none)

/-- The registration calls `CodeGenerator.Generate` can place in the body of
the generated `CreatePackage` method (names from `ReactNativeNames`,
modelled from the spec as the five category routines). -/
inductive RegistrationCall where
  | createViewManagers
  | createModules
  | createSerializers
  | registerExtensionReaders
  | registerExtensionWriter
deriving DecidableEq, Repr

/-- Members of the generated `ReactPackageProvider` class: the public
`CreatePackage` method with its registration-call body, one member per
non-empty category, with one serializer member per registered type
(modelled from the spec: `CreateSerializers`, not under src/, emits one
generated method per serializable type). -/
inductive ClassMember where
  | createPackage (body : List RegistrationCall)
  | createViewManagersMember
  | createModulesMember
  | createSerializerMember (typeId : Nat)
  | registerExtensionReadersMember
  | registerExtensionWriterMember
deriving DecidableEq, Repr

/-- The generated class declaration. -/
structure GeneratedClass where
  name : String
  modifiers : List String
  baseTypes : List Nat
  members : List ClassMember
deriving DecidableEq, Repr

/-- The generated compilation unit: one namespace declaration holding the
generated classes. -/
structure GeneratedNamespace where
  namespaceName : String
  classes : List GeneratedClass
deriving DecidableEq, Repr

/-- CodeGenerator.Generate: for each non-empty category, in the fixed order
view managers, modules, serializers, extension readers, extension writers,
one registration call is appended to the `CreatePackage` body and the
corresponding members are appended to the class body; the `CreatePackage`
method is then inserted at position 0; the result is a namespace with one
public sealed partial class `ReactPackageProvider` based on
`IReactPackageProvider`. -/
def generate (rt : ReactTypes) (rootNamespace : String) (assembly : ReactAssembly) :
    GeneratedNamespace :=
  let calls : List RegistrationCall := []
  let members : List ClassMember := []
  let (calls, members) :=
    if assembly.viewManagers.isEmpty then (calls, members)
    else (calls ++ [RegistrationCall.createViewManagers],
          members ++ [ClassMember.createViewManagersMember])
  let (calls, members) :=
    if assembly.modules.isEmpty then (calls, members)
    else (calls ++ [RegistrationCall.createModules],
          members ++ [ClassMember.createModulesMember])
  let (calls, members) :=
    if assembly.serializableTypes.isEmpty then (calls, members)
    else (calls ++ [RegistrationCall.createSerializers],
          members ++ assembly.serializableTypes.map (fun p => ClassMember.createSerializerMember p.1))
  let (calls, members) :=
    if assembly.jsReaderFunctions.isEmpty then (calls, members)
    else (calls ++ [RegistrationCall.registerExtensionReaders],
          members ++ [ClassMember.registerExtensionReadersMember])
  let (calls, members) :=
    if assembly.jsWriterFunctions.isEmpty then (calls, members)
    else (calls ++ [RegistrationCall.registerExtensionWriter],
          members ++ [ClassMember.registerExtensionWriterMember])
  { namespaceName := rootNamespace,
    classes := [{ name := "ReactPackageProvider",
                  modifiers := ["public", "sealed", "partial"],
                  baseTypes := [rt.iReactPackageProvider],
                  members := ClassMember.createPackage calls :: members }] }

/-! Concrete fixtures used by the counterexample and witness theorems.  The
`ReactTypes` identities are arbitrary distinct numbers, as resolved identities
would be; the environment describes a small analyzed compilation: a local
void-returning delegate (50) over a local enum (60), a second local enum
(61), a local class (70), the external `System.Void` (90), and a default of
an external class for every other identity. -/

/-- Example resolved library type identities. -/
def rtEx : ReactTypes :=
  { iViewManagerType := 1, iReactPackageProvider := 2, reactContext := 3,
    reactConstantProvider := 4, jsValueReader := 5, jsValueWriter := 6,
    reactModuleAttribute := 7, reactInitializerAttribute := 8,
    reactConstantAttribute := 9, reactConstantProviderAttribute := 10,
    reactMethodAttribute := 11, reactSyncMethodAttribute := 12,
    reactEventAttribute := 13, reactFunctionAttribute := 14 }

/-- Example semantic environment for the fixture compilation. -/
def envEx : Nat → TypeInfo := fun t =>
  if t == 50 then
    { isNamed := true, kind := TypeKind.delegateKind, isLocal := true,
      delegateInvoke := some (MethodSig.mk true 90 [ParamInfo.mk 60 false false]) }
  else if t == 60 || t == 61 then
    { isNamed := true, kind := TypeKind.enumKind, isLocal := true, delegateInvoke := none }
  else if t == 70 then
    { isNamed := true, kind := TypeKind.classKind, isLocal := true, delegateInvoke := none }
  else
    { isNamed := true, kind := TypeKind.classKind, isLocal := false, delegateInvoke := none }

/-- A `[ReactMethod]` method whose single (trailing) parameter has the
delegate type 50: under the spec's classification rule it would classify as
`Callback`. -/
def methodWithCallbackParam : MethodSymbol :=
  { name := "doWork",
    attrs := [{ attrClass := 11, ctorArgs := [], namedArgs := [] }],
    accessibility := Accessibility.publicAcc, returnsVoid := true, returnType := 90,
    params := [{ type := 50, isOut := false, isTypeParameter := false }],
    isExtensionMethod := false }

/-- A module type whose marker attribute carries both the positional name
argument "A" and the named argument `ModuleName = "B"`. -/
def moduleTypeBothNames : TypeSymbol :=
  { id := 200, name := "MyModule",
    attrs := [{ attrClass := 7, ctorArgs := [some "A"],
                namedArgs := [("ModuleName", some "B")] }],
    typeKind := TypeKind.classKind, isAbstract := false, allInterfaces := [],
    mightContainExtensionMethods := false, members := [] }

/-- A module type whose only member is an event declared as a read-only
field of the delegate type 50. -/
def moduleTypeEventField : TypeSymbol :=
  { id := 201, name := "EvMod",
    attrs := [{ attrClass := 7, ctorArgs := [], namedArgs := [] }],
    typeKind := TypeKind.classKind, isAbstract := false, allInterfaces := [],
    mightContainExtensionMethods := false,
    members := [MemberSymbol.data (DataMember.field
      { name := "onPing", attrs := [{ attrClass := 13, ctorArgs := [], namedArgs := [] }],
        accessibility := Accessibility.publicAcc, type := 50, isReadOnly := true })] }

/-- A module type whose only member is an event declared as a property of
the delegate type 50 with a private setter. -/
def moduleTypeEventProp : TypeSymbol :=
  { id := 202, name := "EvModP",
    attrs := [{ attrClass := 7, ctorArgs := [], namedArgs := [] }],
    typeKind := TypeKind.classKind, isAbstract := false, allInterfaces := [],
    mightContainExtensionMethods := false,
    members := [MemberSymbol.data (DataMember.prop
      { name := "onPing", attrs := [{ attrClass := 13, ctorArgs := [], namedArgs := [] }],
        accessibility := Accessibility.publicAcc, type := 50,
        getMethod := some Accessibility.publicAcc,
        setMethod := some Accessibility.privateAcc })] }

/-- An event property with a missing setter whose marker attribute carries
an unrecognized named argument. -/
def badSetterPropWithBogusArg : DataMember :=
  DataMember.prop
    { name := "onPong",
      attrs := [{ attrClass := 13, ctorArgs := [],
                  namedArgs := [("Bogus", some "x")] }],
      accessibility := Accessibility.publicAcc, type := 50,
      getMethod := some Accessibility.publicAcc, setMethod := none }

/-- A local enum type referenced by no signature of any module. -/
def unreferencedEnumType : TypeSymbol :=
  { id := 60, name := "Color", attrs := [], typeKind := TypeKind.enumKind,
    isAbstract := false, allInterfaces := [], mightContainExtensionMethods := false,
    members := [] }

/-- A module type exposing two constants whose declared types are the local
enums 60 and 61. -/
def moduleTypeTwoEnumConstants : TypeSymbol :=
  { id := 40, name := "ConstMod",
    attrs := [{ attrClass := 7, ctorArgs := [], namedArgs := [] }],
    typeKind := TypeKind.classKind, isAbstract := false, allInterfaces := [],
    mightContainExtensionMethods := false,
    members :=
      [MemberSymbol.data (DataMember.field
        { name := "c1", attrs := [{ attrClass := 9, ctorArgs := [], namedArgs := [] }],
          accessibility := Accessibility.publicAcc, type := 60, isReadOnly := false }),
       MemberSymbol.data (DataMember.field
        { name := "c2", attrs := [{ attrClass := 9, ctorArgs := [], namedArgs := [] }],
          accessibility := Accessibility.publicAcc, type := 61, isReadOnly := false })] }

/-- The second local enum type of the two-enum scenario. -/
def secondEnumType : TypeSymbol :=
  { id := 61, name := "Shade", attrs := [], typeKind := TypeKind.enumKind,
    isAbstract := false, allInterfaces := [], mightContainExtensionMethods := false,
    members := [] }

/-- A local class referenced by no signature. -/
def unusedLocalClassType : TypeSymbol :=
  { id := 70, name := "Unused", attrs := [], typeKind := TypeKind.classKind,
    isAbstract := false, allInterfaces := [], mightContainExtensionMethods := false,
    members := [] }

/-- The catalog of the two-enum scenario: the module, the two enums it
references through constants, and an unreferenced local class. -/
def twoEnumCatalog : List TypeSymbol :=
  [moduleTypeTwoEnumConstants, unreferencedEnumType, secondEnumType, unusedLocalClassType]

/-- The member is a property whose setter is missing or not accessible (the
shape the not-settable diagnostic is about); a field never satisfies it. -/
def setterNotSettable (symbol : DataMember) : Bool :=
  match symbol with
  | DataMember.prop p =>
    p.setMethod.isNone || !isAccessibleAcc (p.setMethod.getD Accessibility.privateAcc)
  | DataMember.field _ => false

/-- The amended naming rule: the value of the last relevant named argument
wins over the positional argument, and the symbol's own name is the final
fallback. -/
def lastWinsName (symbolName : String) (ctorArgs : List (Option String))
    (namedArgs : List (String × Option String)) (nameKeys : List String) : String :=
  (namedArgs.foldl (fun acc p => if nameKeys.contains p.1 then p.2 else acc)
    (positionalArg ctorArgs)).getD symbolName

/-- Rank of a registration call in the fixed generation order. -/
def callRank : RegistrationCall → Nat
  | RegistrationCall.createViewManagers => 0
  | RegistrationCall.createModules => 1
  | RegistrationCall.createSerializers => 2
  | RegistrationCall.registerExtensionReaders => 3
  | RegistrationCall.registerExtensionWriter => 4

/-- Member list of the single generated class, when there is exactly one. -/
def firstClassMembers (g : GeneratedNamespace) : List ClassMember :=
  match g.classes with
  | [c] => c.members
  | _ => []

/-- Body of the generated `CreatePackage` method when it is the first
member. -/
def bodyOfCreatePackage : List ClassMember → List RegistrationCall
  | ClassMember.createPackage body :: _ => body
  | _ => []

/-- Whether an optional class member is a `CreatePackage` method. -/
def isCreatePackageMember : Option ClassMember → Bool
  | some (ClassMember.createPackage _) => true
  | _ => false

/-- An assembly model with every category empty. -/
def emptyAssemblyEx : ReactAssembly := ReactAssembly.empty

/-- An event property with a missing setter whose marker attribute carries
only recognized named arguments. -/
def badSetterPropRecognizedArgs : DataMember :=
  DataMember.prop
    { name := "onQuery",
      attrs := [{ attrClass := 13, ctorArgs := [],
                  namedArgs := [("EventName", some "queried")] }],
      accessibility := Accessibility.publicAcc, type := 50,
      getMethod := some Accessibility.publicAcc, setMethod := none }

/-- An extension method whose first parameter has the reader capability type
and whose second parameter is an `out` parameter of the local enum type
60. -/
def readerExtensionMethodEx : MethodSymbol :=
  { name := "ReadColor", attrs := [], accessibility := Accessibility.publicAcc,
    returnsVoid := true, returnType := 90,
    params := [ParamInfo.mk 5 false false, ParamInfo.mk 60 true false],
    isExtensionMethod := true }

/-! Theorems. -/

/-- C1: every method extracted by `TryExtractMethodFromAttributeData`
carries the return-shape classification `Void`, whatever its parameter
shape: the `ReactMethod` constructor never assigns `ReturnType`, so the
parameter-shape classification the claim describes does not happen. -/
theorem c1_extracted_method_returnType_always_void
    (method : MethodSymbol) (attributeType : Nat) (synchroneous : Bool)
    (d : List DiagnosticKind) (rm : ReactMethod)
    (h : tryExtractMethodFromAttributeData method attributeType synchroneous = (d, some rm)) :
    rm.returnType = MethodReturnType.void := by
  unfold tryExtractMethodFromAttributeData at h
  split at h
  · simp at h
  · split at h
    · simp at h
    · simp only [Prod.mk.injEq, Option.some.injEq] at h
      rw [← h.2]
      rfl

/-- C1 witness: a `[ReactMethod]` method with one trailing delegate-typed
parameter (which the spec classifies as `Callback`) is extracted with
classification `Void`. -/
theorem c1_extracted_method_returnType_always_void_witness :
    tryExtractMethodFromAttributeData methodWithCallbackParam 11 false
      = ([], some (ReactMethod.create methodWithCallbackParam "doWork" false))
    ∧ (ReactMethod.create methodWithCallbackParam "doWork" false).returnType
      = MethodReturnType.void :=
  ⟨by rfl,
   c1_extracted_method_returnType_always_void methodWithCallbackParam 11 false
     [] (ReactMethod.create methodWithCallbackParam "doWork" false) (by rfl)⟩

/-- C2: with an error-severity compile diagnostic present,
`CompileAndCheckForErrors` records the error but does not return early (the
early return is commented out in the source), so `ReactTypes` is still
resolved and assigned and the run proceeds to model extraction. -/
theorem c2_compile_error_does_not_abort :
    compileAndCheckForErrors [Severity.error] (Sum.inl rtEx)
      = ([DiagnosticKind.CompileError], some rtEx) := by
  rfl

/-- C3 counterexample: a local enum type referenced by no signature (the
catalog holds only the enum, no modules) is nevertheless registered in the
serializable-types map, while the signature-reachability set stays empty. -/
theorem c3_counterexample_unreferenced_enum_registered :
    (analyzeAndFindTypesFull rtEx envEx 10 [unreferencedEnumType]).1.serializableTypes
      = [(60, TypeKind.enumKind)]
    ∧ (analyzeAndFindTypesFull rtEx envEx 10 [unreferencedEnumType]).2.1 = [] := by
  exact ⟨by rfl, by rfl⟩

/-- C4 counterexample: a module marker attribute carrying both the
positional name argument "A" and the named argument `ModuleName = "B"`
resolves to "B", not to the positional argument "A" the claim says wins. -/
theorem c4_counterexample_named_argument_wins :
    ((tryExtractModule rtEx envEx moduleTypeBothNames).2.map (fun m => m.moduleName) = some "B")
    ∧ ¬ ((tryExtractModule rtEx envEx moduleTypeBothNames).2.map (fun m => m.moduleName)
        = some "A") := by
  exact ⟨by rfl, by decide⟩

/-- C6 counterexample: an event property whose setter is missing but whose
marker attribute carries an unrecognized named argument fails with the
unexpected-property diagnostic instead, so the claimed equivalence between
failing with the not-settable diagnostic and being a property without an
accessible setter is false at this input. -/
theorem c6_counterexample_unknown_named_argument_preempts :
    ¬ ((DiagnosticKind.CallbacksMustBeSettable
          ∈ (tryExtractCallback envEx badSetterPropWithBogusArg "ctx" 13).1
        ∧ (tryExtractCallback envEx badSetterPropWithBogusArg "ctx" 13).2 = none)
      ↔ setterNotSettable badSetterPropWithBogusArg = true) := by
  decide

/-- C7 counterexample: a module whose only member is an event declared as a
read-only field produces zero "callback must be settable" diagnostics and
the field does appear in the module's events, contradicting the claim that
exactly one such diagnostic is reported and the field excluded. -/
theorem c7_counterexample_field_event_is_extracted :
    (tryExtractModule rtEx envEx moduleTypeEventField).1.count
      DiagnosticKind.CallbacksMustBeSettable = 0
    ∧ ((tryExtractModule rtEx envEx moduleTypeEventField).2.map (fun m => m.events.length)
        = some 1) := by
  exact ⟨by rfl, by rfl⟩

/-- C7 amended: a module containing an event declared as a property with a
non-accessible setter reports exactly one "callback must be settable"
diagnostic and that property does not appear in the module's events. -/
theorem c7_amended_property_event_not_settable :
    (tryExtractModule rtEx envEx moduleTypeEventProp).1
      = [DiagnosticKind.CallbacksMustBeSettable]
    ∧ ((tryExtractModule rtEx envEx moduleTypeEventProp).2.map (fun m => m.events))
      = some [] := by
  exact ⟨by rfl, by rfl⟩

/-- C5: for every assembly model, the generated create-package method
contains exactly one registration call per non-empty category and none for
an empty category, and the calls appear in the fixed order view managers,
modules, serializers, extension readers, extension writers. -/
theorem c5_create_package_calls_per_nonempty_category
    (rt : ReactTypes) (ns : String) (a : ReactAssembly) :
    (bodyOfCreatePackage (firstClassMembers (generate rt ns a))).count
        RegistrationCall.createViewManagers = (if a.viewManagers.isEmpty then 0 else 1)
    ∧ (bodyOfCreatePackage (firstClassMembers (generate rt ns a))).count
        RegistrationCall.createModules = (if a.modules.isEmpty then 0 else 1)
    ∧ (bodyOfCreatePackage (firstClassMembers (generate rt ns a))).count
        RegistrationCall.createSerializers = (if a.serializableTypes.isEmpty then 0 else 1)
    ∧ (bodyOfCreatePackage (firstClassMembers (generate rt ns a))).count
        RegistrationCall.registerExtensionReaders = (if a.jsReaderFunctions.isEmpty then 0 else 1)
    ∧ (bodyOfCreatePackage (firstClassMembers (generate rt ns a))).count
        RegistrationCall.registerExtensionWriter = (if a.jsWriterFunctions.isEmpty then 0 else 1)
    ∧ (bodyOfCreatePackage (firstClassMembers (generate rt ns a))).Pairwise
        (fun x y => callRank x < callRank y) := by
  cases h1 : a.viewManagers.isEmpty <;>
    cases h2 : a.modules.isEmpty <;>
      cases h3 : a.serializableTypes.isEmpty <;>
        cases h4 : a.jsReaderFunctions.isEmpty <;>
          cases h5 : a.jsWriterFunctions.isEmpty <;>
            simp only [generate, firstClassMembers, bodyOfCreatePackage, h1, h2, h3, h4, h5,
              if_true, if_false, Bool.false_eq_true, ite_false, ite_true] <;>
              decide

/-- C10: for every assembly model, `Generate` emits one namespace holding a
single public sealed partial class named ReactPackageProvider based on the
package-provider capability type, whose first member is the public
CreatePackage method; when every category is empty, CreatePackage has an
empty body and no other member is generated. -/
theorem c10_generate_namespace_class_shape
    (rt : ReactTypes) (ns : String) (a : ReactAssembly) :
    (generate rt ns a).namespaceName = ns
    ∧ (generate rt ns a).classes.map GeneratedClass.name = ["ReactPackageProvider"]
    ∧ (generate rt ns a).classes.map GeneratedClass.modifiers = [["public", "sealed", "partial"]]
    ∧ (generate rt ns a).classes.map GeneratedClass.baseTypes = [[rt.iReactPackageProvider]]
    ∧ isCreatePackageMember (firstClassMembers (generate rt ns a)).head? = true
    ∧ (a.viewManagers = [] → a.modules = [] → a.serializableTypes = [] →
        a.jsReaderFunctions = [] → a.jsWriterFunctions = [] →
        firstClassMembers (generate rt ns a) = [ClassMember.createPackage []]) := by
  refine ⟨by simp [generate], by simp [generate], by simp [generate], by simp [generate],
    by simp [generate, firstClassMembers, isCreatePackageMember], ?_⟩
  intro h1 h2 h3 h4 h5
  simp [generate, firstClassMembers, h1, h2, h3, h4, h5]

/-- C10 witness: for the all-empty assembly model, the generated class body
is exactly the CreatePackage method with an empty body. -/
theorem c10_generate_namespace_class_shape_witness :
    firstClassMembers (generate rtEx "Test.TestNS" emptyAssemblyEx)
      = [ClassMember.createPackage []] :=
  (c10_generate_namespace_class_shape rtEx "Test.TestNS" emptyAssemblyEx).2.2.2.2.2
    (by rfl) (by rfl) (by rfl) (by rfl) (by rfl)

/-- C9: an extension method with exactly two parameters whose second
parameter is not a generic type parameter is indexed as a boundary-reader
function exactly when its first parameter has the reader capability type
and its second parameter is an output parameter; it is indexed as a
boundary-writer function exactly when it is not a reader candidate and its
first parameter has the writer capability type; in each case it is indexed
under its second parameter's type, and otherwise the registries are
unchanged. -/
theorem c9_extension_method_indexing
    (rt : ReactTypes) (a : ReactAssembly) (m : MethodSymbol) (p0 p1 : ParamInfo)
    (hp : m.params = [p0, p1]) (hext : m.isExtensionMethod = true)
    (htp : p1.isTypeParameter = false) :
    ((p0.type = rt.jsValueReader ∧ p1.isOut = true) →
      extensionScanStep rt a (MemberSymbol.method m)
        = { a with jsReaderFunctions := mapPutLast a.jsReaderFunctions p1.type m })
    ∧ (¬ (p0.type = rt.jsValueReader ∧ p1.isOut = true) → p0.type = rt.jsValueWriter →
      extensionScanStep rt a (MemberSymbol.method m)
        = { a with jsWriterFunctions := mapPutLast a.jsWriterFunctions p1.type m })
    ∧ (¬ (p0.type = rt.jsValueReader ∧ p1.isOut = true) → p0.type ≠ rt.jsValueWriter →
      extensionScanStep rt a (MemberSymbol.method m) = a) := by
  have hstep : extensionScanStep rt a (MemberSymbol.method m)
      = (if p0.type == rt.jsValueReader && p1.isOut then
          { a with jsReaderFunctions := mapPutLast a.jsReaderFunctions p1.type m }
        else if p0.type == rt.jsValueWriter then
          { a with jsWriterFunctions := mapPutLast a.jsWriterFunctions p1.type m }
        else a) := by
    simp [extensionScanStep, hp, hext, htp]
  refine ⟨?_, ?_, ?_⟩
  · rintro ⟨he, ho⟩
    rw [hstep]
    simp [he, ho]
  · intro hne hw
    have hrc : (p0.type == rt.jsValueReader && p1.isOut) = false := by
      cases hr : (p0.type == rt.jsValueReader) <;> cases ho : p1.isOut <;>
        simp_all [beq_iff_eq]
    rw [hstep, hrc]
    simp [hw]
  · intro hne hw
    have hrc : (p0.type == rt.jsValueReader && p1.isOut) = false := by
      cases hr : (p0.type == rt.jsValueReader) <;> cases ho : p1.isOut <;>
        simp_all [beq_iff_eq]
    have hwc : (p0.type == rt.jsValueWriter) = false := by
      simp [beq_iff_eq]
      exact hw
    rw [hstep, hrc, hwc]
    simp

/-- C9 witness: scanning a concrete reader extension method over the empty
assembly registers it in the reader registry under its second parameter's
type. -/
theorem c9_extension_method_indexing_witness :
    extensionScanStep rtEx ReactAssembly.empty (MemberSymbol.method readerExtensionMethodEx)
      = { ReactAssembly.empty with
          jsReaderFunctions := mapPutLast [] 60 readerExtensionMethodEx } :=
  (c9_extension_method_indexing rtEx ReactAssembly.empty readerExtensionMethodEx
      (ParamInfo.mk 5 false false) (ParamInfo.mk 60 true false)
      (by rfl) (by rfl) (by rfl)).1 ⟨by rfl, by rfl⟩

/-- The module-name accumulator of the named-argument loop of
`TryExtractModule` resolves, on success, to the value of the last
`ModuleName` argument, else to its initial value. -/
theorem moduleNamedArgsLoop_fst :
    ∀ (args : List (String × Option String)) (mn en : Option String)
      (r : Option String × Option String),
      moduleNamedArgsLoop args mn en = some r →
      r.1 = args.foldl (fun acc p => if (["ModuleName"] : List String).contains p.1 then p.2 else acc) mn
  | [], mn, _, r, h => by
    simp only [moduleNamedArgsLoop, Option.some.injEq] at h
    rw [← h]
    rfl
  | (k, v) :: rest, mn, en, r, h => by
    simp only [moduleNamedArgsLoop] at h
    by_cases hk : (k == "ModuleName") = true
    · rw [if_pos hk] at h
      have := moduleNamedArgsLoop_fst rest v en r h
      rw [this]
      simp only [List.foldl_cons, List.contains_cons, List.contains_nil, Bool.or_false, hk,
        if_true]
    · rw [if_neg hk] at h
      by_cases he : (k == "EventEmitterName") = true
      · rw [if_pos he] at h
        have := moduleNamedArgsLoop_fst rest mn v r h
        rw [this]
        simp only [List.foldl_cons, List.contains_cons, List.contains_nil, Bool.or_false, hk,
          if_false, Bool.false_eq_true]
      · rw [if_neg he] at h
        exact absurd h (by simp)

/-- The name accumulator of the named-argument loop of
`TryExtractMethodFromAttributeData` resolves, on success, to the value of
the last `MethodName` argument, else to its initial value. -/
theorem methodNamedArgsLoop_val :
    ∀ (args : List (String × Option String)) (mn : Option String) (r : Option String),
      methodNamedArgsLoop args mn = some r →
      r = args.foldl (fun acc p => if (["MethodName"] : List String).contains p.1 then p.2 else acc) mn
  | [], mn, r, h => by
    simp only [methodNamedArgsLoop, Option.some.injEq] at h
    rw [← h]
    rfl
  | (k, v) :: rest, mn, r, h => by
    simp only [methodNamedArgsLoop] at h
    by_cases hk : (k == "MethodName") = true
    · rw [if_pos hk] at h
      have := methodNamedArgsLoop_val rest v r h
      rw [this]
      simp only [List.foldl_cons, List.contains_cons, List.contains_nil, Bool.or_false, hk,
        if_true]
    · rw [if_neg hk] at h
      exact absurd h (by simp)

/-- One member-loop step of `TryExtractModule` never changes the module's
resolved name or emitter name. -/
theorem moduleMemberStep_preserves_names (rt : ReactTypes) (env : Nat → TypeInfo)
    (mn en : String) (acc : List DiagnosticKind × ReactModule) (mem : MemberSymbol) :
    (moduleMemberStep rt env mn en acc mem).2.moduleName = acc.2.moduleName := by
  unfold moduleMemberStep
  cases mem <;> (repeat' split) <;> simp

/-- The member loop of `TryExtractModule` never changes the module's
resolved name. -/
theorem moduleMemberFold_preserves_names (rt : ReactTypes) (env : Nat → TypeInfo)
    (mn en : String) :
    ∀ (members : List MemberSymbol) (acc : List DiagnosticKind × ReactModule),
      (members.foldl (moduleMemberStep rt env mn en) acc).2.moduleName = acc.2.moduleName
  | [], _ => rfl
  | mem :: rest, acc => by
    rw [List.foldl_cons, moduleMemberFold_preserves_names rt env mn en rest]
    exact moduleMemberStep_preserves_names rt env mn en acc mem

/-- C4 amended: for every extracted module (and analogously every extracted
method), the declared name is resolved last-match-wins: it equals the value
of the name-override named argument when one is given (the last one if
several), which takes precedence over the attribute's positional argument;
otherwise the positional argument when one is given; otherwise the owning
symbol's own declared name. -/
theorem c4_amended_name_resolution_last_wins :
    (∀ (rt : ReactTypes) (env : Nat → TypeInfo) (t : TypeSymbol) (attr : AttributeData)
      (d : List DiagnosticKind) (m : ReactModule),
      tryFindAttribute t.attrs rt.reactModuleAttribute = some attr →
      tryExtractModule rt env t = (d, some m) →
      m.moduleName = lastWinsName t.name attr.ctorArgs attr.namedArgs ["ModuleName"])
    ∧ (∀ (method : MethodSymbol) (attributeType : Nat) (synchroneous : Bool)
      (attr : AttributeData) (d : List DiagnosticKind) (rm : ReactMethod),
      tryFindAttribute method.attrs attributeType = some attr →
      tryExtractMethodFromAttributeData method attributeType synchroneous = (d, some rm) →
      rm.name = lastWinsName method.name attr.ctorArgs attr.namedArgs ["MethodName"]) := by
  constructor
  · intro rt env t attr d m h1 h2
    unfold tryExtractModule at h2
    split at h2
    next heq => rw [h1] at heq; cases heq
    next attr2 heq =>
      rw [h1] at heq
      cases heq
      split at h2
      next => cases h2
      next mn en heq2 =>
        simp only [Prod.mk.injEq, Option.some.injEq] at h2
        rw [← h2.2, moduleMemberFold_preserves_names]
        have hfirst := moduleNamedArgsLoop_fst attr.namedArgs
          (positionalArg attr.ctorArgs) none (mn, en) heq2
        unfold lastWinsName
        rw [← hfirst]
  · intro method attributeType synchroneous attr d rm h1 h2
    unfold tryExtractMethodFromAttributeData at h2
    split at h2
    next heq => rw [h1] at heq; cases heq
    next attr2 heq =>
      rw [h1] at heq
      cases heq
      split at h2
      next => cases h2
      next name heq2 =>
        simp only [Prod.mk.injEq, Option.some.injEq] at h2
        rw [← h2.2]
        have hname := methodNamedArgsLoop_val attr.namedArgs
          (positionalArg attr.ctorArgs) name heq2
        unfold lastWinsName
        rw [← hname]
        rfl

/-- C4 witness: a module attribute with positional argument "A" and named
argument `ModuleName = "B"` resolves to "B" through the amended rule. -/
theorem c4_amended_name_resolution_last_wins_witness :
    ((tryExtractModule rtEx envEx moduleTypeBothNames).2.get (by decide)).moduleName
      = lastWinsName "MyModule" [some "A"] [("ModuleName", some "B")] ["ModuleName"] :=
  c4_amended_name_resolution_last_wins.1 rtEx envEx moduleTypeBothNames
    { attrClass := 7, ctorArgs := [some "A"], namedArgs := [("ModuleName", some "B")] }
    (tryExtractModule rtEx envEx moduleTypeBothNames).1
    ((tryExtractModule rtEx envEx moduleTypeBothNames).2.get (by decide))
    (by rfl) (by rfl)

/-- When every named argument of a callback attribute uses a recognized
key, the named-argument loop of `TryExtractCallback` succeeds. -/
theorem callbackNamedArgsLoop_recognized :
    ∀ (args : List (String × Option String)) (n c : Option String),
      (∀ p ∈ args, p.1 = "FunctionName" ∨ p.1 = "EventName"
        ∨ p.1 = "ModuleName" ∨ p.1 = "EventEmitterName") →
      (callbackNamedArgsLoop args n c).isSome = true
  | [], _, _, _ => rfl
  | (k, v) :: rest, n, c, h => by
    have hk := h (k, v) (List.mem_cons_self _ _)
    have hrest : ∀ p ∈ rest, p.1 = "FunctionName" ∨ p.1 = "EventName"
        ∨ p.1 = "ModuleName" ∨ p.1 = "EventEmitterName" :=
      fun p hp => h p (List.mem_cons_of_mem _ hp)
    simp only [callbackNamedArgsLoop]
    rcases hk with h1 | h1 | h1 | h1 <;> subst h1 <;> simp <;>
      exact callbackNamedArgsLoop_recognized rest _ _ hrest

/-- C6 amended: for a callback member carrying its marker attribute with no
unrecognized named argument, extraction fails with the "not settable"
diagnostic if and only if the member is a property whose setter is missing
or not accessible; a field callback member never produces that
diagnostic. -/
theorem c6_amended_not_settable_iff (env : Nat → TypeInfo) (symbol : DataMember)
    (ctx : String) (attributeType : Nat) (attr : AttributeData)
    (h1 : tryFindAttribute symbol.attrs attributeType = some attr)
    (h2 : ∀ p ∈ attr.namedArgs, p.1 = "FunctionName" ∨ p.1 = "EventName"
      ∨ p.1 = "ModuleName" ∨ p.1 = "EventEmitterName") :
    ((DiagnosticKind.CallbacksMustBeSettable
        ∈ (tryExtractCallback env symbol ctx attributeType).1
      ∧ (tryExtractCallback env symbol ctx attributeType).2 = none)
    ↔ setterNotSettable symbol = true) := by
  obtain ⟨r, hr⟩ := Option.isSome_iff_exists.mp
    (callbackNamedArgsLoop_recognized attr.namedArgs (positionalArg attr.ctorArgs) none h2)
  obtain ⟨n, c⟩ := r
  simp only [tryExtractCallback, h1, hr]
  rcases symbol with p | f <;>
    simp only [setterNotSettable] <;>
    (repeat' split) <;>
    simp_all

/-- C6 witness: a property event with a missing setter and only recognized
named arguments fails with exactly the not-settable diagnostic. -/
theorem c6_amended_not_settable_iff_witness :
    (DiagnosticKind.CallbacksMustBeSettable
        ∈ (tryExtractCallback envEx badSetterPropRecognizedArgs "ctx" 13).1
      ∧ (tryExtractCallback envEx badSetterPropRecognizedArgs "ctx" 13).2 = none)
    ↔ setterNotSettable badSetterPropRecognizedArgs = true :=
  c6_amended_not_settable_iff envEx badSetterPropRecognizedArgs "ctx" 13
    { attrClass := 13, ctorArgs := [], namedArgs := [("EventName", some "queried")] }
    (by rfl) (by decide)

/-- A property preserved by every step is preserved by a fold. -/
theorem foldlPreserve {σ α : Type _} (P : σ → Prop) (f : σ → α → σ)
    (h : ∀ (s : σ) (a : α), P s → P (f s a)) :
    ∀ (l : List α) (s : σ), P s → P (l.foldl f s)
  | [], _, hs => hs
  | a :: l, s, hs => foldlPreserve P f h l (f s a) (h s a hs)

/-- A property preserved by every step taken at a list element is preserved
by the fold over that list. -/
theorem foldlPreserveMem {σ α : Type _} (P : σ → Prop) (f : σ → α → σ) :
    ∀ (l : List α), (∀ (s : σ) (a : α), a ∈ l → P s → P (f s a)) →
      ∀ (s : σ), P s → P (l.foldl f s)
  | [], _, _, hs => hs
  | a :: l, h, s, hs =>
    foldlPreserveMem P f l (fun s b hb => h s b (List.mem_cons_of_mem a hb)) (f s a)
      (h s a (List.mem_cons_self a l) hs)

/-- A closure-state property preserved by each `AddSerializableType` step is
preserved by the list traversal, given per-element preservation. -/
theorem addSerListPreserveOf (env : Nat → TypeInfo) (P : ClosureState → Prop) (fuel : Nat)
    (hT : ∀ (t : Nat) (s : ClosureState), P s → P (addSerializableType env fuel t s)) :
    ∀ (l : List Nat) (s : ClosureState), P s → P (addSerializableTypeList env fuel l s)
  | [], _, hs => by simpa [addSerializableTypeList] using hs
  | t :: ts, s, hs => by
    simp only [addSerializableTypeList]
    exact addSerListPreserveOf env P fuel hT ts _ (hT t s hs)

/-- A closure-state property preserved by marking a type processed and by
registering an already-processed type is preserved by
`AddSerializableType`. -/
theorem addSerPreserve (env : Nat → TypeInfo) (P : ClosureState → Prop)
    (h1 : ∀ (t : Nat) (s : ClosureState), P s → P ⟨t :: s.processed, s.ser⟩)
    (h2 : ∀ (t : Nat) (k : TypeKind) (s : ClosureState),
      t ∈ s.processed → P s → P ⟨s.processed, mapAdd s.ser t k⟩) :
    ∀ (fuel t : Nat) (s : ClosureState), P s → P (addSerializableType env fuel t s) := by
  intro fuel
  induction fuel with
  | zero =>
    intro t s hs
    simpa [addSerializableType] using hs
  | succ f ih =>
    intro t s hs
    simp only [addSerializableType]
    split
    · exact hs
    · have hs1 : P ⟨t :: s.processed, s.ser⟩ := h1 t s hs
      split
      · split
        · split
          · exact addSerListPreserveOf env P f ih _ _ hs1
          · exact hs1
        · split
          · exact h2 t (env t).kind ⟨t :: s.processed, s.ser⟩ (List.mem_cons_self t _) hs1
          · exact hs1
      · exact hs1

/-- The guard set only grows across `AddSerializableType`. -/
theorem addSerProcessedMono (env : Nat → TypeInfo) (fuel t : Nat) (s : ClosureState) :
    s.processed ⊆ (addSerializableType env fuel t s).processed :=
  addSerPreserve env (fun s2 => s.processed ⊆ s2.processed)
    (fun u s2 h => List.Subset.trans h (List.subset_cons_self u s2.processed))
    (fun _ _ _ _ h => h) fuel t s (fun _ hx => hx)

/-- After a call with positive fuel, the argument type is in the guard
set. -/
theorem addSerMemProcessed (env : Nat → TypeInfo) (f t : Nat) (s : ClosureState) :
    t ∈ (addSerializableType env (f + 1) t s).processed := by
  have hkeep := addSerPreserve env (fun s2 => t ∈ s2.processed)
    (fun u s2 h => List.mem_cons_of_mem u h) (fun _ _ _ _ h => h) f
  simp only [addSerializableType]
  split
  · next hc => exact List.elem_iff.mp hc
  · have hmem : t ∈ (⟨t :: s.processed, s.ser⟩ : ClosureState).processed :=
      List.mem_cons_self t s.processed
    split
    · split
      · split
        · exact addSerListPreserveOf env (fun s2 => t ∈ s2.processed) f hkeep _ _ hmem
        · exact hmem
      · split
        · exact hmem
        · exact hmem
    · exact hmem

/-- Inserting into the serializable-types map keeps its keys without
duplicates. -/
theorem mapAdd_keys_nodup (m : List (Nat × TypeKind)) (k : Nat) (v : TypeKind)
    (h : (m.map Prod.fst).Nodup) : ((mapAdd m k v).map Prod.fst).Nodup := by
  unfold mapAdd
  split
  · exact h
  · next hany =>
    rw [List.map_append]
    refine List.Nodup.append h (List.nodup_singleton k) ?_
    intro x hx hxk
    rw [List.map_singleton, List.mem_singleton] at hxk
    subst hxk
    apply hany
    rw [List.any_eq_true]
    obtain ⟨p, hp, hpk⟩ := List.mem_map.mp hx
    exact ⟨p, hp, by simp [hpk]⟩

/-- A key of the map after insertion is an old key or the inserted key. -/
theorem mapAdd_keys_sub (m : List (Nat × TypeKind)) (k : Nat) (v : TypeKind) :
    ∀ x ∈ (mapAdd m k v).map Prod.fst, x ∈ m.map Prod.fst ∨ x = k := by
  intro x hx
  unfold mapAdd at hx
  split at hx
  · exact Or.inl hx
  · rw [List.map_append] at hx
    rcases List.mem_append.mp hx with h | h
    · exact Or.inl h
    · right
      simpa using h

/-- The extension-method scan never touches the serializable-types map. -/
theorem extensionScanStep_ser (rt : ReactTypes) (a : ReactAssembly) (m : MemberSymbol) :
    (extensionScanStep rt a m).serializableTypes = a.serializableTypes := by
  unfold extensionScanStep
  repeat' (first | rfl | split)

/-- Folding the extension-method scan never touches the serializable-types
map. -/
theorem extensionScanFold_ser (rt : ReactTypes) :
    ∀ (l : List MemberSymbol) (a : ReactAssembly),
      (l.foldl (extensionScanStep rt) a).serializableTypes = a.serializableTypes
  | [], _ => rfl
  | m :: l, a => by
    rw [List.foldl_cons, extensionScanFold_ser rt l, extensionScanStep_ser]

/-- The serializable-types map after one step of the catalog loop: the
type's identity is registered under its kind when the type is an enum,
otherwise the map is unchanged. -/
theorem analyzeTypeStep_ser (rt : ReactTypes) (env : Nat → TypeInfo)
    (acc : ReactAssembly × List DiagnosticKind) (t : TypeSymbol) :
    (analyzeTypeStep rt env acc t).1.serializableTypes
      = (if t.typeKind == TypeKind.enumKind then
          mapAdd acc.1.serializableTypes t.id t.typeKind
        else acc.1.serializableTypes) := by
  unfold analyzeTypeStep
  cases hr : (tryExtractModule rt env t).2 <;>
    cases hvm : isViewManager rt t <;>
      cases hen : (t.typeKind == TypeKind.enumKind) <;>
        cases hmc : t.mightContainExtensionMethods <;>
          simp [hr, hvm, hen, hmc, extensionScanFold_ser]

/-- A closure-state property preserved by the two primitive closure steps is
preserved by the per-module seeding loop. -/
theorem seedModulePreserve (env : Nat → TypeInfo) (fuel : Nat) (P : ClosureState → Prop)
    (h1 : ∀ (t : Nat) (s : ClosureState), P s → P ⟨t :: s.processed, s.ser⟩)
    (h2 : ∀ (t : Nat) (k : TypeKind) (s : ClosureState),
      t ∈ s.processed → P s → P ⟨s.processed, mapAdd s.ser t k⟩)
    (s : ClosureState) (m : ReactModule) (hs : P s) : P (seedModule env fuel s m) := by
  have hT := addSerPreserve env P h1 h2 fuel
  have hL := addSerListPreserveOf env P fuel hT
  unfold seedModule
  refine foldlPreserve P _ ?_ _ _ (foldlPreserve P _ ?_ _ _ (foldlPreserve P _ ?_ _ _ hs))
  · intro s2 cb h
    exact foldlPreserve P _ (fun s3 p h3 => hT p.type s3 h3) cb.callbackParameters s2 h
  · intro s2 c h
    exact hT (constantType c) s2 h
  · intro s2 rm h
    exact hL _ s2 h

/-- The keys of the serializable-types map after the full analysis are
without duplicates. -/
theorem analyzeFull_keys_nodup (rt : ReactTypes) (env : Nat → TypeInfo) (fuel : Nat)
    (catalog : List TypeSymbol) :
    (((analyzeAndFindTypesFull rt env fuel catalog).1.serializableTypes).map Prod.fst).Nodup := by
  unfold analyzeAndFindTypesFull
  have hphase1 : ∀ (acc : ReactAssembly × List DiagnosticKind),
      ((acc.1.serializableTypes).map Prod.fst).Nodup →
      (((catalog.foldl (analyzeTypeStep rt env) acc).1.serializableTypes).map Prod.fst).Nodup := by
    intro acc hacc
    refine foldlPreserve (fun p => ((p.1.serializableTypes).map Prod.fst).Nodup) _ ?_ catalog acc hacc
    intro p t hp
    rw [analyzeTypeStep_ser]
    split
    · exact mapAdd_keys_nodup _ _ _ hp
    · exact hp
  have h1 := hphase1 (ReactAssembly.empty, []) (by simp [ReactAssembly.empty])
  exact foldlPreserve (fun cs => ((cs.ser).map Prod.fst).Nodup) (seedModule env fuel)
    (fun cs m hcs => seedModulePreserve env fuel (fun cs2 => ((cs2.ser).map Prod.fst).Nodup)
      (fun _ _ h => h) (fun t k s2 _ h => mapAdd_keys_nodup _ _ _ h) cs m hcs)
    ((catalog.foldl (analyzeTypeStep rt env) (ReactAssembly.empty, [])).1.modules)
    ⟨[], (catalog.foldl (analyzeTypeStep rt env) (ReactAssembly.empty, [])).1.serializableTypes⟩
    h1

/-- Every key of the serializable-types map after the full analysis is
either the identity of an enum type of the catalog (proactive registration)
or a type reached by the signature-seeded closure (a member of the final
guard set). -/
theorem analyzeFull_keys_origin (rt : ReactTypes) (env : Nat → TypeInfo) (fuel : Nat)
    (catalog : List TypeSymbol) (k : Nat)
    (hk : k ∈ ((analyzeAndFindTypesFull rt env fuel catalog).1.serializableTypes).map Prod.fst) :
    (∃ t ∈ catalog, t.id = k ∧ t.typeKind = TypeKind.enumKind)
    ∨ k ∈ (analyzeAndFindTypesFull rt env fuel catalog).2.1 := by
  unfold analyzeAndFindTypesFull at hk ⊢
  have hphase1 : ∀ x ∈ (((catalog.foldl (analyzeTypeStep rt env)
      (ReactAssembly.empty, [])).1.serializableTypes).map Prod.fst),
      ∃ t ∈ catalog, t.id = x ∧ t.typeKind = TypeKind.enumKind := by
    refine foldlPreserveMem
      (fun p => ∀ x ∈ ((p.1.serializableTypes).map Prod.fst),
        ∃ t ∈ catalog, t.id = x ∧ t.typeKind = TypeKind.enumKind)
      (analyzeTypeStep rt env) catalog ?_ (ReactAssembly.empty, []) ?_
    · intro p t ht hp x hx
      rw [analyzeTypeStep_ser] at hx
      revert hx
      split
      · next hen =>
        intro hx
        rcases mapAdd_keys_sub _ _ _ x hx with h | h
        · exact hp x h
        · exact ⟨t, ht, h.symm, by simpa using hen⟩
      · intro hx
        exact hp x hx
    · intro x hx
      simp [ReactAssembly.empty] at hx
  have hphase2 : ∀ x ∈ ((((catalog.foldl (analyzeTypeStep rt env)
        (ReactAssembly.empty, [])).1.modules.foldl (seedModule env fuel)
        ⟨[], (catalog.foldl (analyzeTypeStep rt env)
          (ReactAssembly.empty, [])).1.serializableTypes⟩).ser).map Prod.fst),
      (∃ t ∈ catalog, t.id = x ∧ t.typeKind = TypeKind.enumKind)
      ∨ x ∈ ((catalog.foldl (analyzeTypeStep rt env)
        (ReactAssembly.empty, [])).1.modules.foldl (seedModule env fuel)
        ⟨[], (catalog.foldl (analyzeTypeStep rt env)
          (ReactAssembly.empty, [])).1.serializableTypes⟩).processed := by
    refine foldlPreserve
      (fun cs => ∀ x ∈ ((cs.ser).map Prod.fst),
        (∃ t ∈ catalog, t.id = x ∧ t.typeKind = TypeKind.enumKind) ∨ x ∈ cs.processed)
      (seedModule env fuel) ?_ _ _ ?_
    · intro cs m hcs
      refine seedModulePreserve env fuel
        (fun cs2 => ∀ x ∈ ((cs2.ser).map Prod.fst),
          (∃ t ∈ catalog, t.id = x ∧ t.typeKind = TypeKind.enumKind) ∨ x ∈ cs2.processed)
        ?_ ?_ cs m hcs
      · intro t s2 h x hx
        exact (h x hx).imp id (List.mem_cons_of_mem t)
      · intro t k2 s2 hmem h x hx
        rcases mapAdd_keys_sub _ _ _ x hx with h0 | h0
        · exact h x h0
        · subst h0
          exact Or.inr hmem
    · intro x hx
      exact Or.inl (hphase1 x hx)
  exact hphase2 k hk

/-- C8: adding a type already in the processed set is a no-op (so a second
invocation changes nothing), the serializable-types mapping keeps its keys
unique through any invocation, and the mapping produced by the full
analysis has no duplicate keys. -/
theorem c8_add_serializable_type_idempotent :
    (∀ (env : Nat → TypeInfo) (fuel t : Nat) (s : ClosureState),
      addSerializableType env fuel t (addSerializableType env fuel t s)
        = addSerializableType env fuel t s)
    ∧ (∀ (env : Nat → TypeInfo) (fuel t : Nat) (s : ClosureState),
      ((s.ser).map Prod.fst).Nodup →
      (((addSerializableType env fuel t s).ser).map Prod.fst).Nodup)
    ∧ (∀ (rt : ReactTypes) (env : Nat → TypeInfo) (fuel : Nat) (catalog : List TypeSymbol),
      (((analyzeAndFindTypesFull rt env fuel catalog).1.serializableTypes).map Prod.fst).Nodup) := by
  refine ⟨?_, ?_, ?_⟩
  · intro env fuel t s
    cases fuel with
    | zero => rfl
    | succ f =>
      have hmem := addSerMemProcessed env f t s
      have hstop : ∀ (s2 : ClosureState), t ∈ s2.processed →
          addSerializableType env (f + 1) t s2 = s2 := by
        intro s2 h
        simp [addSerializableType, h]
      exact hstop _ hmem
  · intro env fuel t s h
    exact addSerPreserve env (fun s2 => ((s2.ser).map Prod.fst).Nodup)
      (fun _ _ hh => hh) (fun u k s2 _ hh => mapAdd_keys_nodup _ _ _ hh) fuel t s h
  · intro rt env fuel catalog
    exact analyzeFull_keys_nodup rt env fuel catalog

/-- C8 witness: a concrete double invocation is a no-op and the resulting
map keys are without duplicates. -/
theorem c8_add_serializable_type_idempotent_witness :
    addSerializableType envEx 1 60 (addSerializableType envEx 1 60 ⟨[], []⟩)
      = addSerializableType envEx 1 60 ⟨[], []⟩
    ∧ (((addSerializableType envEx 1 60 (⟨[], []⟩ : ClosureState)).ser).map Prod.fst).Nodup :=
  ⟨c8_add_serializable_type_idempotent.1 envEx 1 60 ⟨[], []⟩,
   c8_add_serializable_type_idempotent.2.1 envEx 1 60 ⟨[], []⟩ (by decide)⟩

/-- C3 amended: a type of the analyzed compilation enters the
serializable-types map either as a proactively registered local enum type
of the catalog or by being reached from a directly referenced signature
(the guard set of the seeded closure); in particular, for the input whose
modules reference exactly two local enum types via constants' declared
types, the closure contains exactly those two types classified as enums
(an unreferenced local non-enum type is not registered, while an
unreferenced local enum type is). -/
theorem c3_amended_closure_registration :
    (∀ (rt : ReactTypes) (env : Nat → TypeInfo) (fuel : Nat) (catalog : List TypeSymbol)
      (k : Nat),
      k ∈ (((analyzeAndFindTypesFull rt env fuel catalog).1.serializableTypes).map Prod.fst) →
      (∃ t ∈ catalog, t.id = k ∧ t.typeKind = TypeKind.enumKind)
      ∨ k ∈ (analyzeAndFindTypesFull rt env fuel catalog).2.1)
    ∧ (analyzeAndFindTypes rtEx envEx 10 twoEnumCatalog).serializableTypes
        = [(60, TypeKind.enumKind), (61, TypeKind.enumKind)] :=
  ⟨fun rt env fuel catalog k hk => analyzeFull_keys_origin rt env fuel catalog k hk, by rfl⟩

/-- C3 witness: in the two-enum scenario, the registered key 60 originates
from a catalog enum or from the signature-seeded closure. -/
theorem c3_amended_closure_registration_witness :
    (∃ t ∈ twoEnumCatalog, t.id = 60 ∧ t.typeKind = TypeKind.enumKind)
    ∨ 60 ∈ (analyzeAndFindTypesFull rtEx envEx 10 twoEnumCatalog).2.1 :=
  c3_amended_closure_registration.1 rtEx envEx 10 twoEnumCatalog 60 (by decide)

end RnwCodeGen
